import Mathlib

/-!
Verification development for the incremental calibration estimator
(`IncrementalEstimator.cpp` / `IncrementalEstimator.h`).

The estimator is embedded shallowly: the external collaborators (nonlinear
solver, marginalization routine, linear solver statistics) are oracle inputs
to each call, packed in `TrialEnv`; doubles are modelled as `ℚ`; matrices are
modelled as dimension-tagged entry lists.  The optimization-problem container
(`IncrementalOptimizationProblem`) is not part of the two source files, so its
operations are modelled from the spec (see the doc comments below).
-/

namespace AslamCalibration

/-- Dense matrix model: row count, column count and entries.  Only structural
equality and the column count (`cols`, used by the rank comparison in
`IncrementalEstimator::addBatch`) matter to the estimator logic. -/
structure Mat where
  rows : Nat
  cols : Nat
  data : List ℚ
deriving DecidableEq

/-- Options of the estimator as used by `IncrementalEstimator.cpp`
(`_miTol`, `_verbose`, `_maxIterations`, `_colNorm`, `_qrTol`). -/
structure Options where
  miTol : ℚ
  verbose : Bool
  maxIterations : Nat
  colNorm : Bool
  qrTol : ℚ
deriving DecidableEq

/-- Result of `Optimizer2::optimize()` as consumed by the estimator:
iteration count, start cost and final cost. -/
structure SolutionReturnValue where
  iterations : Nat
  JStart : ℚ
  JFinal : ℚ
deriving DecidableEq

/-- Output of the `marginalize` routine: log-singular-value sum, null-space
basis, column-space basis, the two covariances and the precision matrix. -/
structure MargResult where
  svLogSum : ℚ
  NS : Mat
  CS : Mat
  Sigma : Mat
  SigmaP : Mat
  Omega : Mat
deriving DecidableEq

/-- A measurement batch: identity (models the shared pointer), the current
values of the design variables it contributes, and the group ids its design
variables declare. -/
structure Batch where
  id : Nat
  vars : List ℚ
  groups : List Nat
deriving DecidableEq

/-- Modelled from the spec: the Pool (`IncrementalOptimizationProblem`) is not
among the two source files; per §2/§6 it holds the committed batches, the
mutable group ordering, and a saved copy of the design-variable values used by
`saveDesignVariables`/`restoreDesignVariables`. -/
structure Problem where
  batches : List Batch
  groupsOrdering : List Nat
  saved : List (Nat × List ℚ)
deriving DecidableEq

/-- Modelled from the spec: appends the group ids of an incoming batch that
are not yet present to the Pool's group ordering. -/
def addGroups (ord : List Nat) (gs : List Nat) : List Nat :=
  gs.foldl (fun o g => if g ∈ o then o else o ++ [g]) ord

/-- Modelled from the spec: `IncrementalOptimizationProblem::add` appends the
batch to the container and registers its variable groups. -/
def Problem.add (p : Problem) (b : Batch) : Problem :=
  { p with batches := p.batches ++ [b],
           groupsOrdering := addGroups p.groupsOrdering b.groups }

/-- Modelled from the spec: `saveDesignVariables` deep-copies every variable
value (per batch identity) so a later reject can restore them bit-for-bit. -/
def Problem.saveDesignVariables (p : Problem) : Problem :=
  { p with saved := p.batches.map fun b => (b.id, b.vars) }

/-- Restores one batch's variable values from the saved copy, if present. -/
def restoreVars (saved : List (Nat × List ℚ)) (b : Batch) : Batch :=
  match saved.find? (fun q => q.1 == b.id) with
  | some q => { b with vars := q.2 }
  | none => b

/-- Modelled from the spec: `restoreDesignVariables` restores every variable
still in the Pool from the saved copy. -/
def Problem.restoreDesignVariables (p : Problem) : Problem :=
  { p with batches := p.batches.map (restoreVars p.saved) }

/-- Modelled from the spec: `IncrementalOptimizationProblem::remove(batch)`
removes the batch with the given identity from the container. -/
def Problem.removeById (p : Problem) (i : Nat) : Problem :=
  { p with batches := p.batches.filter fun b => b.id != i }

/-- The nonlinear solver mutates design-variable values only; `applySolve`
applies the oracle's post-solve values (indexed by batch identity). -/
def applySolve (f : Nat → List ℚ) (bs : List Batch) : List Batch :=
  bs.map fun b => { b with vars := f b.id }

/-- Applies the solver's variable mutation to the Pool. -/
def solveProblem (f : Nat → List ℚ) (p : Problem) : Problem :=
  { p with batches := applySolve f p.batches }

/-- Estimator state: the Pool, the marginalized group id, the stored
information gain `_mi`, the stored log-singular-value sum `_svLogSum`, the
Spectral Snapshot members `_NS`, `_CS`, `_Sigma`, `_SigmaP`, `_Omega`, and the
options. -/
structure EstState where
  problem : Problem
  margGroupId : Nat
  mi : ℚ
  svLogSum : ℚ
  NS : Mat
  CS : Mat
  Sigma : Mat
  SigmaP : Mat
  Omega : Mat
  options : Options
deriving DecidableEq

/-- Constructor state (`IncrementalEstimator::IncrementalEstimator`):
empty problem, `_mi = 0`, `_svLogSum = 0`, empty matrices. -/
def initialState (groupId : Nat) (opts : Options) : EstState :=
  { problem := { batches := [], groupsOrdering := [], saved := [] }
    margGroupId := groupId
    mi := 0
    svLogSum := 0
    NS := ⟨0, 0, []⟩
    CS := ⟨0, 0, []⟩
    Sigma := ⟨0, 0, []⟩
    SigmaP := ⟨0, 0, []⟩
    Omega := ⟨0, 0, []⟩
    options := opts }

/-- Oracle inputs of one estimator call: what the nonlinear solver writes into
the variables and reports, what `marginalize` returns for the post-solve
Jacobian, and the linear-solver statistics read afterwards. -/
structure TrialEnv where
  solve : Nat → List ℚ
  srv : SolutionReturnValue
  marg : MargResult
  rank : Nat
  qrTol : ℚ
  elapsed : ℚ
  memUsage : Nat

/-- Errors raised by the estimator: `InvalidOperationException` from
`orderMarginalizedDesignVariables`, and the double-consumption failure of the
single-use trial ticket. -/
inductive EstError where
  | invalidOperation : EstError
  | doubleConsumption : EstError
deriving DecidableEq

/-- Return value of `addBatch`/`reoptimize` as populated by
`IncrementalEstimator.cpp` (`_batchAccepted`, `_mi`, `_rank`, `_qrTol`,
`_numIterations`, `_JStart`, `_JFinal`, `_elapsedTime`,
`_cholmodMemoryUsage`, and the marginalization outputs). -/
structure ReturnValue where
  batchAccepted : Bool
  mi : ℚ
  rank : Nat
  qrTol : ℚ
  numIterations : Nat
  JStart : ℚ
  JFinal : ℚ
  elapsedTime : ℚ
  cholmodMemoryUsage : Nat
  NS : Mat
  CS : Mat
  Sigma : Mat
  SigmaP : Mat
  Omega : Mat
deriving DecidableEq

/-- Validity check of `addBatch` (lines 189-193): `solutionValid` starts
`true` and is set to `false` when the iteration count equals the configured
maximum or the final cost did not decrease. -/
def solutionValidOf (o : Options) (srv : SolutionReturnValue) : Bool :=
  if srv.iterations = o.maxIterations ∨ srv.JFinal ≥ srv.JStart then false else true

/-- Condition of the first-round branch of `addBatch` (line 208):
`!_svLogSum && solutionValid`. -/
def BootKeep (s : EstState) (env : TrialEnv) : Prop :=
  s.svLogSum = 0 ∧ solutionValidOf s.options env.srv = true

instance (s : EstState) (env : TrialEnv) : Decidable (BootKeep s env) :=
  inferInstanceAs
    (Decidable (s.svLogSum = 0 ∧ solutionValidOf s.options env.srv = true))

/-- Information gain of the non-bootstrap branch (line 220):
`0.5 * (svLogSum - _svLogSum)`. -/
def infoGainOf (s : EstState) (env : TrialEnv) : ℚ :=
  (1 / 2) * (env.marg.svLogSum - s.svLogSum)

/-- Decision of `addBatch` to keep the batch (`keepBatch`): true in the
first-round branch, and otherwise exactly when the gain exceeds `_miTol` or
the column-space basis gained columns, and the solution is valid
(line 228). -/
def KeepBatch (s : EstState) (env : TrialEnv) : Prop :=
  BootKeep s env ∨
    ((s.options.miTol < infoGainOf s env ∨ s.CS.cols < env.marg.CS.cols) ∧
      solutionValidOf s.options env.srv = true)

instance (s : EstState) (env : TrialEnv) : Decidable (KeepBatch s env) :=
  inferInstanceAs (Decidable (_ ∨ _))

/-- Information gain written into the return value: `0` in the first-round
branch (line 211), the raw gain otherwise (line 221). -/
def retMiOf (s : EstState) (env : TrialEnv) : ℚ :=
  if BootKeep s env then 0 else infoGainOf s env

/-- Value of the stored `_mi` after the call: `addBatch` assigns `_mi` only in
the non-bootstrap keep branch (line 232). -/
def newMiOf (s : EstState) (env : TrialEnv) : ℚ :=
  if BootKeep s env then s.mi else infoGainOf s env

/-- Group reordering of `orderMarginalizedDesignVariables` (lines 309-314):
when the marginalized group is present but its first occurrence is not the
value at the back, it is swapped with the back. -/
def orderGroups (l : List Nat) (g : Nat) : List Nat :=
  if l.getLast? = some g then l
  else (l.set (l.indexOf g) (l.getLastD 0)).set (l.length - 1) g

/-- Return value assembled by `addBatch` (lines 199-247). -/
def mkReturn (accepted : Bool) (mi : ℚ) (env : TrialEnv) : ReturnValue :=
  { batchAccepted := accepted
    mi := mi
    rank := env.rank
    qrTol := env.qrTol
    numIterations := env.srv.iterations
    JStart := env.srv.JStart
    JFinal := env.srv.JFinal
    elapsedTime := env.elapsed
    cholmodMemoryUsage := env.memUsage
    NS := env.marg.NS
    CS := env.marg.CS
    Sigma := env.marg.Sigma
    SigmaP := env.marg.SigmaP
    Omega := env.marg.Omega }

/-- Shallow embedding of `IncrementalEstimator::addBatch` (lines 172-269).
The batch is added to the Pool, the marginalized group is moved to the back
of the ordering (raising `invalidOperation` when the group id is absent, with
the batch already added), the variable values are saved, the solver runs, the
new spectrum is scored against the stored one, and the batch is either kept
(updating the Spectral Snapshot members) or, when neither kept nor forced,
removed again with the variable values restored.  `restoreLinearSolver` only
rebuilds solver-internal structure and has no counterpart in this state. -/
def addBatch (s : EstState) (b : Batch) (force : Bool) (env : TrialEnv) :
    EstState × Except EstError ReturnValue :=
  let p1 := s.problem.add b
  if s.margGroupId ∈ p1.groupsOrdering then
    let p2 : Problem :=
      { p1 with groupsOrdering := orderGroups p1.groupsOrdering s.margGroupId }
    let p4 := solveProblem env.solve p2.saveDesignVariables
    let m := env.marg
    let ret := mkReturn (decide (KeepBatch s env) || force) (retMiOf s env) env
    if KeepBatch s env then
      ({ s with problem := p4
                svLogSum := m.svLogSum
                mi := newMiOf s env
                NS := m.NS
                CS := m.CS
                Sigma := m.Sigma
                SigmaP := m.SigmaP
                Omega := m.Omega }, Except.ok ret)
    else if force then
      ({ s with problem := p4 }, Except.ok ret)
    else
      ({ s with problem := (p4.removeById b.id).restoreDesignVariables },
        Except.ok ret)
  else
    ({ s with problem := p1 }, Except.error EstError.invalidOperation)

/-- Shallow embedding of `IncrementalEstimator::reoptimize` (lines 140-170).
Reorders, re-solves and re-marginalizes against the committed Pool; updates
`_svLogSum`, `_NS`, `_CS`, `_Sigma`, `_SigmaP` (and neither `_Omega` nor
`_mi`); returns zero gain and `batchAccepted = false`. -/
def reoptimize (s : EstState) (env : TrialEnv) :
    EstState × Except EstError ReturnValue :=
  if s.margGroupId ∈ s.problem.groupsOrdering then
    let p2 : Problem :=
      { s.problem with
          groupsOrdering := orderGroups s.problem.groupsOrdering s.margGroupId }
    let p3 := solveProblem env.solve p2
    let m := env.marg
    ({ s with problem := p3
              svLogSum := m.svLogSum
              NS := m.NS
              CS := m.CS
              Sigma := m.Sigma
              SigmaP := m.SigmaP },
      Except.ok (mkReturn false 0 env))
  else
    (s, Except.error EstError.invalidOperation)

/-- Shallow embedding of `IncrementalEstimator::removeBatch(size_t)`
(lines 271-288): removes the batch at the index, reorders, re-solves,
re-marginalizes into all Spectral Snapshot members, and sets
`_mi = svLogSum - _svLogSum` (the raw delta), `_svLogSum = svLogSum`. -/
def removeBatchIdx (s : EstState) (idx : Nat) (env : TrialEnv) :
    EstState × Except EstError Unit :=
  let p1 : Problem := { s.problem with batches := s.problem.batches.eraseIdx idx }
  if s.margGroupId ∈ p1.groupsOrdering then
    let p2 : Problem :=
      { p1 with groupsOrdering := orderGroups p1.groupsOrdering s.margGroupId }
    let p3 := solveProblem env.solve p2
    let m := env.marg
    ({ s with problem := p3
              NS := m.NS
              CS := m.CS
              Sigma := m.Sigma
              SigmaP := m.SigmaP
              Omega := m.Omega
              mi := m.svLogSum - s.svLogSum
              svLogSum := m.svLogSum }, Except.ok ())
  else
    ({ s with problem := p1 }, Except.error EstError.invalidOperation)

/-- Shallow embedding of `IncrementalEstimator::removeBatch(const BatchSP&)`
(lines 290-294): looks the batch up by identity and, only when it is found,
removes it by index; when it is absent the call silently does nothing. -/
def removeBatchHandle (s : EstState) (b : Batch) (env : TrialEnv) :
    EstState × Except EstError Unit :=
  match s.problem.batches.findIdx? (fun x => x.id == b.id) with
  | some i => removeBatchIdx s i env
  | none => (s, Except.ok ())

/-- Number of committed batches (`getNumBatches`). -/
def getNumBatches (s : EstState) : Nat :=
  s.problem.batches.length

/-! Helper lemmas for the rollback argument. -/

lemma restoreVars_cons_ne (x : Nat) (v : List ℚ) (rest : List (Nat × List ℚ))
    (b : Batch) (h : x ≠ b.id) :
    restoreVars ((x, v) :: rest) b = restoreVars rest b := by
  simp [restoreVars, List.find?_cons, h]

lemma restore_applySolve (f : Nat → List ℚ) (l : List Batch)
    (saved : List (Nat × List ℚ))
    (h : ∀ b ∈ l, saved.find? (fun q => q.1 == b.id) = some (b.id, b.vars)) :
    (applySolve f l).map (restoreVars saved) = l := by
  induction l with
  | nil => rfl
  | cons a t ih =>
    have ha := h a (List.mem_cons_self a t)
    have hhead : restoreVars saved { a with vars := f a.id } = a := by
      simp [restoreVars, ha]
    simp only [applySolve, List.map_cons] at *
    rw [hhead, ih (fun b hb => h b (List.mem_cons_of_mem a hb))]

lemma find_saved (l : List Batch) (x : Batch) (hx : x ∈ l)
    (hnd : (l.map Batch.id).Nodup) :
    (l.map fun c => (c.id, c.vars)).find? (fun q => q.1 == x.id)
      = some (x.id, x.vars) := by
  induction l with
  | nil => cases hx
  | cons a t ih =>
    rcases List.mem_cons.mp hx with rfl | hx'
    · simp [List.find?_cons]
    · have hmem : x.id ∈ t.map Batch.id := List.mem_map_of_mem Batch.id hx'
      have hnd' : a.id ∉ t.map Batch.id ∧ (t.map Batch.id).Nodup := by
        rw [List.map_cons, List.nodup_cons] at hnd
        exact hnd
      have hne : a.id ≠ x.id := fun e => hnd'.1 (e ▸ hmem)
      simpa [List.find?_cons, hne] using ih hx' hnd'.2

lemma find_saved_append (l : List Batch) (extra : List (Nat × List ℚ))
    (x : Batch) (hx : x ∈ l) (hnd : (l.map Batch.id).Nodup) :
    ((l.map fun c => (c.id, c.vars)) ++ extra).find? (fun q => q.1 == x.id)
      = some (x.id, x.vars) := by
  rw [List.find?_append, find_saved l x hx hnd]
  rfl

lemma filter_fresh (f : Nat → List ℚ) (l : List Batch) (b : Batch)
    (hfresh : b.id ∉ l.map Batch.id) :
    (applySolve f (l ++ [b])).filter (fun x => x.id != b.id) = applySolve f l := by
  simp only [applySolve, List.map_append, List.filter_append, List.map_cons,
    List.map_nil]
  have h2 : (([{ b with vars := f b.id }] : List Batch).filter
      (fun x => x.id != b.id)) = [] := by
    simp
  have h1 : ((l.map fun c => { c with vars := f c.id }).filter
      (fun x => x.id != b.id)) = l.map fun c => { c with vars := f c.id } := by
    apply List.filter_eq_self.mpr
    intro x hx
    obtain ⟨c, hc, rfl⟩ := List.mem_map.mp hx
    simp only [bne_iff_ne, ne_eq, decide_eq_true_eq]
    exact fun e => hfresh (e ▸ List.mem_map_of_mem Batch.id hc)
  rw [h1, h2, List.append_nil]

lemma rollback_batches (f : Nat → List ℚ) (orig : List Batch) (b : Batch)
    (hnd : (orig.map Batch.id).Nodup) (hfresh : b.id ∉ orig.map Batch.id) :
    ((applySolve f (orig ++ [b])).filter (fun x => x.id != b.id)).map
      (restoreVars ((orig ++ [b]).map fun c => (c.id, c.vars))) = orig := by
  rw [filter_fresh f orig b hfresh]
  apply restore_applySolve
  intro x hx
  rw [List.map_append]
  exact find_saved_append orig _ x hx hnd

/-! Claim theorems. -/

/-- C1. Rollback purity: a trial rejected by `addBatch` (not kept and not
forced) leaves the committed batch list with its variable values, the stored
log-singular-value sum, the stored information gain, and every Spectral
Snapshot member exactly as they were before the call. -/
theorem addBatch_reject_rollback (s : EstState) (b : Batch) (env : TrialEnv)
    (hmem : s.margGroupId ∈ (s.problem.add b).groupsOrdering)
    (hnd : (s.problem.batches.map Batch.id).Nodup)
    (hfresh : b.id ∉ s.problem.batches.map Batch.id)
    (hkeep : ¬ KeepBatch s env) :
    (addBatch s b false env).1.problem.batches = s.problem.batches ∧
    (addBatch s b false env).1.svLogSum = s.svLogSum ∧
    (addBatch s b false env).1.mi = s.mi ∧
    (addBatch s b false env).1.NS = s.NS ∧
    (addBatch s b false env).1.CS = s.CS ∧
    (addBatch s b false env).1.Sigma = s.Sigma ∧
    (addBatch s b false env).1.SigmaP = s.SigmaP ∧
    (addBatch s b false env).1.Omega = s.Omega := by
  simp only [addBatch, if_pos hmem, if_neg hkeep, Bool.false_eq_true, if_false,
    and_true, true_and]
  simp only [Problem.restoreDesignVariables, Problem.removeById, solveProblem,
    Problem.saveDesignVariables, Problem.add]
  exact rollback_batches env.solve s.problem.batches b hnd hfresh

/-- Concrete batch for the C1 witness. -/
def w1Batch : Batch := ⟨7, [3], [5]⟩

/-- Concrete estimator state for the C1 witness: one committed batch, a
nonzero stored log-singular-value sum. -/
def w1State : EstState :=
  { problem := { batches := [⟨1, [2], [5]⟩], groupsOrdering := [5], saved := [] }
    margGroupId := 5
    mi := 0
    svLogSum := 4
    NS := ⟨1, 1, [0]⟩
    CS := ⟨3, 2, []⟩
    Sigma := ⟨0, 0, []⟩
    SigmaP := ⟨0, 0, []⟩
    Omega := ⟨0, 0, []⟩
    options := ⟨1 / 5, false, 20, false, 0⟩ }

/-- Concrete oracle for the C1 witness: valid solve, unchanged spectrum, so
the trial is rejected. -/
def w1Env : TrialEnv :=
  { solve := fun _ => [9]
    srv := ⟨5, 10, 8⟩
    marg := ⟨4, ⟨1, 1, [1]⟩, ⟨3, 2, []⟩, ⟨0, 0, []⟩, ⟨0, 0, []⟩, ⟨0, 0, []⟩⟩
    rank := 3
    qrTol := 0
    elapsed := 0
    memUsage := 0 }

/-- Witness for C1 at a concrete rejected trial. -/
theorem addBatch_reject_rollback_witness :
    ¬ KeepBatch w1State w1Env ∧
      (addBatch w1State w1Batch false w1Env).1.problem.batches
        = w1State.problem.batches := by
  have hkeep : ¬ KeepBatch w1State w1Env := by
    norm_num [KeepBatch, BootKeep, infoGainOf, solutionValidOf, w1State, w1Env]
  exact ⟨hkeep, (addBatch_reject_rollback w1State w1Batch w1Env (by decide)
    (by decide) (by decide) hkeep).1⟩

/-- C2 (amended). After an accepted batch the committed batch count increases
by exactly one; when the batch was kept as informative the stored Spectral
Snapshot becomes the trial's snapshot, but when the batch was accepted only by
force the stored snapshot keeps its pre-trial value (the invariant of the
claim fails for forced accepts). -/
theorem addBatch_accept_spec (s : EstState) (b : Batch) (force : Bool)
    (env : TrialEnv)
    (hmem : s.margGroupId ∈ (s.problem.add b).groupsOrdering)
    (hacc : KeepBatch s env ∨ force = true) :
    getNumBatches (addBatch s b force env).1 = getNumBatches s + 1 ∧
    (KeepBatch s env →
      (addBatch s b force env).1.svLogSum = env.marg.svLogSum ∧
      (addBatch s b force env).1.NS = env.marg.NS ∧
      (addBatch s b force env).1.CS = env.marg.CS ∧
      (addBatch s b force env).1.Sigma = env.marg.Sigma ∧
      (addBatch s b force env).1.SigmaP = env.marg.SigmaP ∧
      (addBatch s b force env).1.Omega = env.marg.Omega) ∧
    (¬ KeepBatch s env →
      (addBatch s b force env).1.svLogSum = s.svLogSum ∧
      (addBatch s b force env).1.NS = s.NS ∧
      (addBatch s b force env).1.CS = s.CS ∧
      (addBatch s b force env).1.Sigma = s.Sigma ∧
      (addBatch s b force env).1.SigmaP = s.SigmaP ∧
      (addBatch s b force env).1.Omega = s.Omega) := by
  by_cases hk : KeepBatch s env
  · simp only [addBatch, if_pos hmem, if_pos hk]
    refine ⟨?_, fun _ => by simp, fun h => absurd hk h⟩
    simp [getNumBatches, solveProblem, applySolve, Problem.saveDesignVariables,
      Problem.add]
  · have hforce : force = true := hacc.resolve_left hk
    simp only [addBatch, if_pos hmem, if_neg hk, hforce, if_true]
    refine ⟨?_, fun h => absurd h hk, fun _ => by simp⟩
    simp [getNumBatches, solveProblem, applySolve, Problem.saveDesignVariables,
      Problem.add]

/-- Concrete batch for the C2 counterexample. -/
def c2Batch : Batch := ⟨7, [3], [5]⟩

/-- Concrete state for the C2 counterexample: nonzero stored sum and a stored
null-space basis that differs from the trial's. -/
def c2State : EstState :=
  { problem := { batches := [⟨1, [2], [5]⟩], groupsOrdering := [5], saved := [] }
    margGroupId := 5
    mi := 0
    svLogSum := 4
    NS := ⟨1, 1, [0]⟩
    CS := ⟨3, 2, []⟩
    Sigma := ⟨0, 0, []⟩
    SigmaP := ⟨0, 0, []⟩
    Omega := ⟨0, 0, []⟩
    options := ⟨1 / 5, false, 20, false, 0⟩ }

/-- Concrete oracle for the C2 counterexample: the solve is invalid (final
cost above start cost), so the batch is not informative, and the trial
produces a different null-space basis. -/
def c2Env : TrialEnv :=
  { solve := fun _ => [9]
    srv := ⟨5, 10, 12⟩
    marg := ⟨4, ⟨1, 1, [1]⟩, ⟨3, 2, []⟩, ⟨0, 0, []⟩, ⟨0, 0, []⟩, ⟨0, 0, []⟩⟩
    rank := 3
    qrTol := 0
    elapsed := 0
    memUsage := 0 }

/-- Counterexample to C2 as stated: a force-accepted non-informative batch is
reported accepted, yet the stored Spectral Snapshot does not become the
trial's snapshot — it keeps the pre-trial null-space basis, which differs
from the trial's. -/
theorem addBatch_force_stale_snapshot :
    (addBatch c2State c2Batch true c2Env).2
        = Except.ok (mkReturn true 0 c2Env) ∧
    (addBatch c2State c2Batch true c2Env).1.NS = c2State.NS ∧
    c2State.NS ≠ c2Env.marg.NS := by
  have hkeep : ¬ KeepBatch c2State c2Env := by
    norm_num [KeepBatch, BootKeep, infoGainOf, solutionValidOf, c2State, c2Env]
  have hmi : retMiOf c2State c2Env = 0 := by
    norm_num [retMiOf, BootKeep, infoGainOf, solutionValidOf, c2State, c2Env]
  have hmem : c2State.margGroupId ∈ (c2State.problem.add c2Batch).groupsOrdering :=
    by decide
  refine ⟨?_, ?_, by decide⟩
  · simp [addBatch, if_pos hmem, hkeep, hmi]
  · simp [addBatch, if_pos hmem, hkeep]

/-- Concrete oracle for the C2 witness: valid solve with a large spectrum
gain, so the batch is kept as informative. -/
def c2AcceptEnv : TrialEnv :=
  { solve := fun _ => [9]
    srv := ⟨5, 10, 8⟩
    marg := ⟨10, ⟨1, 1, [1]⟩, ⟨3, 2, []⟩, ⟨0, 0, []⟩, ⟨0, 0, []⟩, ⟨0, 0, []⟩⟩
    rank := 3
    qrTol := 0
    elapsed := 0
    memUsage := 0 }

/-- Witness for C2 at a concrete informative accepted trial. -/
theorem addBatch_accept_spec_witness :
    KeepBatch w1State c2AcceptEnv ∧
      getNumBatches (addBatch w1State c2Batch false c2AcceptEnv).1
        = getNumBatches w1State + 1 := by
  have hk : KeepBatch w1State c2AcceptEnv := by
    norm_num [KeepBatch, BootKeep, infoGainOf, solutionValidOf, w1State,
      c2AcceptEnv]
  exact ⟨hk, (addBatch_accept_spec w1State c2Batch false c2AcceptEnv
    (by decide) (Or.inl hk)).1⟩

/-- Return value produced by a completed `addBatch` trial: identical in every
non-error branch of the call. -/
lemma addBatch_ret (s : EstState) (b : Batch) (force : Bool) (env : TrialEnv)
    (hmem : s.margGroupId ∈ (s.problem.add b).groupsOrdering) :
    (addBatch s b force env).2
      = Except.ok (mkReturn (decide (KeepBatch s env) || force)
          (retMiOf s env) env) := by
  cases force <;> by_cases hk : KeepBatch s env <;>
    simp [addBatch, if_pos hmem, hk]

/-- C3. For a trial with a nonzero stored log-singular-value sum (the code's
non-bootstrap case), the reported information gain is half the difference of
the new and the stored sums, and a non-forced trial is accepted exactly when
the solution is valid and either the gain exceeds the configured threshold or
the new column-space basis has strictly more columns — a rank increase counts
regardless of gain magnitude. -/
theorem addBatch_gain_classification (s : EstState) (b : Batch) (env : TrialEnv)
    (h0 : s.svLogSum ≠ 0)
    (hmem : s.margGroupId ∈ (s.problem.add b).groupsOrdering) :
    (addBatch s b false env).2.toOption.map ReturnValue.mi
        = some ((1 / 2) * (env.marg.svLogSum - s.svLogSum)) ∧
    ((addBatch s b false env).2.toOption.map ReturnValue.batchAccepted
        = some true ↔
      (solutionValidOf s.options env.srv = true ∧
        (s.options.miTol < (1 / 2) * (env.marg.svLogSum - s.svLogSum) ∨
          s.CS.cols < env.marg.CS.cols))) := by
  have hboot : ¬ BootKeep s env := fun h => h0 h.1
  rw [addBatch_ret s b false env hmem]
  constructor
  · simp [Except.toOption, mkReturn, retMiOf, hboot, infoGainOf]
  · simp only [Except.toOption, Option.map_some', mkReturn, Bool.or_false,
      Option.some.injEq, decide_eq_true_eq]
    rw [KeepBatch, or_iff_right hboot, and_comm]
    exact Iff.rfl

/-- Concrete state for the C3 witness: nonzero stored sum, threshold `1/5`,
column-space basis with two columns. -/
def w3State : EstState :=
  { problem := { batches := [⟨1, [2], [5]⟩], groupsOrdering := [5], saved := [] }
    margGroupId := 5
    mi := 0
    svLogSum := 4
    NS := ⟨1, 1, [0]⟩
    CS := ⟨3, 2, []⟩
    Sigma := ⟨0, 0, []⟩
    SigmaP := ⟨0, 0, []⟩
    Omega := ⟨0, 0, []⟩
    options := ⟨1 / 5, false, 20, false, 0⟩ }

/-- Concrete oracle for the C3 witness: unchanged spectrum sum (gain `0`,
below the threshold) but a column-space basis that gained a column. -/
def w3Env : TrialEnv :=
  { solve := fun _ => [9]
    srv := ⟨5, 10, 8⟩
    marg := ⟨4, ⟨1, 1, [1]⟩, ⟨3, 3, []⟩, ⟨0, 0, []⟩, ⟨0, 0, []⟩, ⟨0, 0, []⟩⟩
    rank := 3
    qrTol := 0
    elapsed := 0
    memUsage := 0 }

/-- Witness for C3: the rank-increase override scenario — gain `0` is below
the threshold `1/5`, yet the batch is classified informative because the
column space grew. -/
theorem addBatch_gain_classification_witness :
    w3State.svLogSum ≠ 0 ∧
      (addBatch w3State w1Batch false w3Env).2.toOption.map ReturnValue.mi
          = some ((1 / 2) * (w3Env.marg.svLogSum - w3State.svLogSum)) ∧
      ((addBatch w3State w1Batch false w3Env).2.toOption.map
            ReturnValue.batchAccepted = some true ↔
        (solutionValidOf w3State.options w3Env.srv = true ∧
          (w3State.options.miTol
              < (1 / 2) * (w3Env.marg.svLogSum - w3State.svLogSum) ∨
            w3State.CS.cols < w3Env.marg.CS.cols))) :=
  ⟨by norm_num [w3State],
    addBatch_gain_classification w3State w1Batch w3Env
      (by norm_num [w3State]) (by decide)⟩

/-- C4 (amended). The solution-valid flag computed by `addBatch` is false
exactly when the iteration count equals the configured maximum OR the final
cost failed to drop below the start cost; there is no configuration flag that
treats hitting the cap as still valid, so hitting the cap alone already
invalidates the solution. -/
theorem solutionValid_iff (o : Options) (srv : SolutionReturnValue) :
    solutionValidOf o srv = false ↔
      (srv.iterations = o.maxIterations ∨ srv.JFinal ≥ srv.JStart) := by
  by_cases h : srv.iterations = o.maxIterations ∨ srv.JFinal ≥ srv.JStart <;>
    simp [solutionValidOf, h]

/-- Concrete options for the C4 counterexample. -/
def c4Opts : Options := ⟨1 / 5, false, 20, false, 0⟩

/-- Concrete solver report for the C4 counterexample: the iteration cap was
hit, but the cost decreased from `10` to `8`. -/
def c4Srv : SolutionReturnValue := ⟨20, 10, 8⟩

/-- Counterexample to C4 as stated: the solver hit the iteration cap while
still decreasing the cost, so the claim's conjunction (cap AND no cost
decrease) is falsified, yet the code marks the solution invalid. -/
theorem solutionValid_cap_counterexample :
    solutionValidOf c4Opts c4Srv = false ∧
      ¬(c4Srv.iterations = c4Opts.maxIterations ∧ c4Srv.JFinal ≥ c4Srv.JStart) := by
  constructor
  · norm_num [solutionValidOf, c4Opts, c4Srv]
  · norm_num [c4Opts, c4Srv]

/-- C5 (amended). When the marginalized group id is absent from the Pool's
group ordering at reorder time, `addBatch` fails with the invalid-operation
error and the Spectral Snapshot and stored scalars are unchanged — but the
candidate batch was already inserted and is left behind in the Pool. -/
theorem addBatch_missing_group (s : EstState) (b : Batch) (force : Bool)
    (env : TrialEnv)
    (h : s.margGroupId ∉ (s.problem.add b).groupsOrdering) :
    addBatch s b force env
      = ({ s with problem := s.problem.add b },
          Except.error EstError.invalidOperation) ∧
    b ∈ (addBatch s b force env).1.problem.batches := by
  have h1 : addBatch s b force env
      = ({ s with problem := s.problem.add b },
          Except.error EstError.invalidOperation) := by
    simp [addBatch, h]
  refine ⟨h1, ?_⟩
  rw [h1]
  simp [Problem.add]

/-- Concrete state for the C5 counterexample and witness: the marginalized
group id `2` never appears in any batch. -/
def c5State : EstState := initialState 2 ⟨1 / 5, false, 20, false, 0⟩

/-- Concrete batch for the C5 counterexample and witness: its variables
declare only group `1`. -/
def c5Batch : Batch := ⟨7, [3], [1]⟩

/-- Concrete oracle for the C5 counterexample and witness (never consulted:
the call fails before solving). -/
def c5Env : TrialEnv :=
  { solve := fun _ => [9]
    srv := ⟨5, 10, 8⟩
    marg := ⟨4, ⟨1, 1, [1]⟩, ⟨3, 2, []⟩, ⟨0, 0, []⟩, ⟨0, 0, []⟩, ⟨0, 0, []⟩⟩
    rank := 3
    qrTol := 0
    elapsed := 0
    memUsage := 0 }

/-- Counterexample to C5 as stated: the call fails with the invalid-operation
error, but the candidate batch IS left in the Pool, contradicting "the
estimator's state is unchanged by the failed call". -/
theorem addBatch_missing_group_counterexample :
    (addBatch c5State c5Batch false c5Env).2
        = Except.error EstError.invalidOperation ∧
    c5Batch ∈ (addBatch c5State c5Batch false c5Env).1.problem.batches := by
  have h1 : addBatch c5State c5Batch false c5Env
      = ({ c5State with problem := c5State.problem.add c5Batch },
          Except.error EstError.invalidOperation) := by
    rw [addBatch.eq_def]
    rw [if_neg (by decide :
      ¬ c5State.margGroupId ∈ (c5State.problem.add c5Batch).groupsOrdering)]
  rw [h1]
  exact ⟨rfl, by simp [Problem.add]⟩

/-- Witness for C5 at the concrete failing configuration. -/
theorem addBatch_missing_group_witness :
    c5State.margGroupId ∉ (c5State.problem.add c5Batch).groupsOrdering ∧
      addBatch c5State c5Batch false c5Env
        = ({ c5State with problem := c5State.problem.add c5Batch },
            Except.error EstError.invalidOperation) :=
  ⟨by decide, (addBatch_missing_group c5State c5Batch false c5Env (by decide)).1⟩

/-- C6 (amended). Calling the handle-based `removeBatch` with a batch that is
not currently committed performs no action at all: no error is raised, no
re-solve happens, and the estimator state (batch count, variable values,
Spectral Snapshot) is returned unchanged. -/
theorem removeBatchHandle_absent (s : EstState) (b : Batch) (env : TrialEnv)
    (h : ∀ x ∈ s.problem.batches, x.id ≠ b.id) :
    removeBatchHandle s b env = (s, Except.ok ()) := by
  have hfind : s.problem.batches.findIdx? (fun x => x.id == b.id) = none := by
    rw [List.findIdx?_eq_none_iff]
    intro x hx
    simpa using h x hx
  simp [removeBatchHandle, hfind]

/-- Concrete state for the C6 counterexample and witness: one committed batch
with identity `1`. -/
def c6State : EstState :=
  { problem := { batches := [⟨1, [2], [5]⟩], groupsOrdering := [5], saved := [] }
    margGroupId := 5
    mi := 0
    svLogSum := 4
    NS := ⟨1, 1, [0]⟩
    CS := ⟨3, 2, []⟩
    Sigma := ⟨0, 0, []⟩
    SigmaP := ⟨0, 0, []⟩
    Omega := ⟨0, 0, []⟩
    options := ⟨1 / 5, false, 20, false, 0⟩ }

/-- Concrete uncommitted batch handle for the C6 counterexample and witness. -/
def c6Batch : Batch := ⟨9, [4], [5]⟩

/-- Concrete oracle for the C6 counterexample and witness (never consulted:
the handle is absent). -/
def c6Env : TrialEnv :=
  { solve := fun _ => [9]
    srv := ⟨5, 10, 8⟩
    marg := ⟨4, ⟨1, 1, [1]⟩, ⟨3, 2, []⟩, ⟨0, 0, []⟩, ⟨0, 0, []⟩, ⟨0, 0, []⟩⟩
    rank := 3
    qrTol := 0
    elapsed := 0
    memUsage := 0 }

/-- Counterexample to C6 as stated: removal of an uncommitted handle does NOT
fail — the call returns successfully (no error of any kind) and merely leaves
the state untouched, where the claim demands a NotFound failure. -/
theorem removeBatchHandle_absent_counterexample :
    removeBatchHandle c6State c6Batch c6Env = (c6State, Except.ok ()) ∧
      ∀ e : EstError, (removeBatchHandle c6State c6Batch c6Env).2
        ≠ Except.error e := by
  have h1 : removeBatchHandle c6State c6Batch c6Env = (c6State, Except.ok ()) := by
    rw [removeBatchHandle.eq_def]
    rw [(by decide : c6State.problem.batches.findIdx?
      (fun x => x.id == c6Batch.id) = none)]
  exact ⟨h1, fun e => by rw [h1]; simp⟩

/-- Witness for C6 at the concrete absent handle. -/
theorem removeBatchHandle_absent_witness :
    (∀ x ∈ c6State.problem.batches, x.id ≠ c6Batch.id) ∧
      removeBatchHandle c6State c6Batch c6Env = (c6State, Except.ok ()) :=
  ⟨by decide, removeBatchHandle_absent c6State c6Batch c6Env (by decide)⟩

/-- C7 (amended). On the estimator's first trial (freshly constructed state,
stored sum `0`): with a valid solution the reported gain is `0` and the batch
is classified informative; with an invalid solution the batch is not
informative and the reported gain is half the NEW log-singular-value sum —
so a force-accepted first batch with an invalid solution can report a nonzero
gain, and the trial is accepted exactly when it is forced. -/
theorem addBatch_bootstrap (gid : Nat) (opts : Options) (b : Batch)
    (force : Bool) (env : TrialEnv)
    (hmem : gid ∈ ((initialState gid opts).problem.add b).groupsOrdering) :
    (solutionValidOf opts env.srv = true →
      (addBatch (initialState gid opts) b force env).2.toOption.map
          ReturnValue.mi = some 0 ∧
      KeepBatch (initialState gid opts) env) ∧
    (solutionValidOf opts env.srv = false →
      (addBatch (initialState gid opts) b force env).2.toOption.map
          ReturnValue.mi = some ((1 / 2) * env.marg.svLogSum) ∧
      ¬ KeepBatch (initialState gid opts) env ∧
      (addBatch (initialState gid opts) b force env).2.toOption.map
          ReturnValue.batchAccepted = some force) := by
  rw [addBatch_ret (initialState gid opts) b force env hmem]
  constructor
  · intro hvalid
    have hboot : BootKeep (initialState gid opts) env := ⟨rfl, hvalid⟩
    exact ⟨by simp [Except.toOption, mkReturn, retMiOf, hboot], Or.inl hboot⟩
  · intro hinvalid
    have hnv : ¬ solutionValidOf (initialState gid opts).options env.srv
        = true := by
      simp [initialState, hinvalid]
    have hboot : ¬ BootKeep (initialState gid opts) env := fun hb => hnv hb.2
    have hkeep : ¬ KeepBatch (initialState gid opts) env := by
      intro hk
      rcases hk with hb | ⟨_, hv⟩
      · exact hboot hb
      · exact hnv hv
    refine ⟨?_, hkeep, ?_⟩
    · have h2 : retMiOf (initialState gid opts) env
          = (1 / 2) * env.marg.svLogSum := by
        rw [retMiOf.eq_def, if_neg hboot, infoGainOf.eq_def]
        norm_num [initialState]
      simp [Except.toOption, mkReturn, h2]
    · simp [Except.toOption, mkReturn, hkeep]

/-- Concrete initial state for the C7 counterexample: no batch has ever been
committed. -/
def c7State : EstState := initialState 5 ⟨1 / 5, false, 20, false, 0⟩

/-- Concrete first batch for the C7 counterexample. -/
def c7Batch : Batch := ⟨7, [3], [5]⟩

/-- Concrete oracle for the C7 counterexample: the solve is invalid (the cost
rose), and the new spectrum has log-singular-value sum `2`. -/
def c7Env : TrialEnv :=
  { solve := fun _ => [9]
    srv := ⟨5, 10, 12⟩
    marg := ⟨2, ⟨1, 1, [1]⟩, ⟨3, 2, []⟩, ⟨0, 0, []⟩, ⟨0, 0, []⟩, ⟨0, 0, []⟩⟩
    rank := 3
    qrTol := 0
    elapsed := 0
    memUsage := 0 }

/-- Counterexample to C7 as stated: the very first batch (no batch committed
before), force-accepted with an invalid solution, reports information gain
`1`, not `0`. -/
theorem bootstrap_force_gain_counterexample :
    getNumBatches c7State = 0 ∧
    (addBatch c7State c7Batch true c7Env).2.toOption.map
        ReturnValue.batchAccepted = some true ∧
    (addBatch c7State c7Batch true c7Env).2.toOption.map
        ReturnValue.mi = some 1 ∧
    (1 : ℚ) ≠ 0 := by
  have hboot : ¬ BootKeep c7State c7Env := by
    norm_num [BootKeep, solutionValidOf, c7State, c7Env, initialState]
  have hmi : retMiOf c7State c7Env = 1 := by
    rw [retMiOf.eq_def, if_neg hboot, infoGainOf.eq_def]
    norm_num [c7State, c7Env, initialState]
  rw [addBatch_ret c7State c7Batch true c7Env (by decide)]
  refine ⟨rfl, ?_, ?_, ?_⟩
  · simp [Except.toOption, mkReturn]
  · simp [Except.toOption, mkReturn, hmi]
  · norm_num

/-- Witness for C7 at a concrete valid bootstrap trial. -/
theorem addBatch_bootstrap_witness :
    (5 : Nat) ∈ ((initialState 5 c4Opts).problem.add c7Batch).groupsOrdering ∧
      ((solutionValidOf c4Opts c2AcceptEnv.srv = true →
        (addBatch (initialState 5 c4Opts) c7Batch false c2AcceptEnv).2.toOption.map
            ReturnValue.mi = some 0 ∧
        KeepBatch (initialState 5 c4Opts) c2AcceptEnv) ∧
      (solutionValidOf c4Opts c2AcceptEnv.srv = false →
        (addBatch (initialState 5 c4Opts) c7Batch false c2AcceptEnv).2.toOption.map
            ReturnValue.mi = some ((1 / 2) * c2AcceptEnv.marg.svLogSum) ∧
        ¬ KeepBatch (initialState 5 c4Opts) c2AcceptEnv ∧
        (addBatch (initialState 5 c4Opts) c7Batch false c2AcceptEnv).2.toOption.map
            ReturnValue.batchAccepted = some false)) :=
  ⟨by decide, addBatch_bootstrap 5 c4Opts c7Batch false c2AcceptEnv (by decide)⟩

/-- C8 (amended). `reoptimize` re-solves and re-marginalizes against the
committed Pool without adding or removing a batch, updates the stored
log-singular-value sum, null-space basis, column-space basis and both
covariances from the new marginalization, and returns zero information gain
with `batchAccepted = false` — but the stored precision matrix `_Omega`
(a Spectral Snapshot member) and the stored gain `_mi` are left at their old
values. -/
theorem reoptimize_spec (s : EstState) (env : TrialEnv)
    (hmem : s.margGroupId ∈ s.problem.groupsOrdering) :
    (reoptimize s env).1.svLogSum = env.marg.svLogSum ∧
    (reoptimize s env).1.NS = env.marg.NS ∧
    (reoptimize s env).1.CS = env.marg.CS ∧
    (reoptimize s env).1.Sigma = env.marg.Sigma ∧
    (reoptimize s env).1.SigmaP = env.marg.SigmaP ∧
    (reoptimize s env).1.Omega = s.Omega ∧
    (reoptimize s env).1.mi = s.mi ∧
    (reoptimize s env).1.problem.batches.map Batch.id
      = s.problem.batches.map Batch.id ∧
    (reoptimize s env).2 = Except.ok (mkReturn false 0 env) := by
  rw [reoptimize.eq_def, if_pos hmem]
  refine ⟨rfl, rfl, rfl, rfl, rfl, rfl, rfl, ?_, rfl⟩
  simp only [solveProblem, applySolve, List.map_map]
  rfl

/-- Concrete state for the C8 counterexample and witness: the stored precision
matrix is `⟨1, 1, [5]⟩`. -/
def c8State : EstState :=
  { problem := { batches := [⟨1, [2], [5]⟩], groupsOrdering := [5], saved := [] }
    margGroupId := 5
    mi := 3
    svLogSum := 4
    NS := ⟨1, 1, [0]⟩
    CS := ⟨3, 2, []⟩
    Sigma := ⟨0, 0, []⟩
    SigmaP := ⟨0, 0, []⟩
    Omega := ⟨1, 1, [5]⟩
    options := ⟨1 / 5, false, 20, false, 0⟩ }

/-- Concrete oracle for the C8 counterexample and witness: the new
marginalization produces a different precision matrix `⟨1, 1, [7]⟩`. -/
def c8Env : TrialEnv :=
  { solve := fun _ => [9]
    srv := ⟨5, 10, 8⟩
    marg := ⟨6, ⟨1, 1, [1]⟩, ⟨3, 2, []⟩, ⟨0, 0, []⟩, ⟨0, 0, []⟩, ⟨1, 1, [7]⟩⟩
    rank := 3
    qrTol := 0
    elapsed := 0
    memUsage := 0 }

/-- Counterexample to C8 as stated: after `reoptimize` the stored precision
matrix still equals the pre-call one and differs from the trial's new
precision matrix, so the "entire Spectral Snapshot" is not updated. -/
theorem reoptimize_stale_precision_counterexample :
    (reoptimize c8State c8Env).1.Omega = c8State.Omega ∧
      c8State.Omega ≠ c8Env.marg.Omega := by
  rw [reoptimize.eq_def, if_pos (by decide :
    c8State.margGroupId ∈ c8State.problem.groupsOrdering)]
  exact ⟨rfl, by decide⟩

/-- Witness for C8 at the concrete reoptimization. -/
theorem reoptimize_spec_witness :
    c8State.margGroupId ∈ c8State.problem.groupsOrdering ∧
      (reoptimize c8State c8Env).1.svLogSum = c8Env.marg.svLogSum ∧
      (reoptimize c8State c8Env).2 = Except.ok (mkReturn false 0 c8Env) :=
  ⟨by decide, (reoptimize_spec c8State c8Env (by decide)).1,
    (reoptimize_spec c8State c8Env (by decide)).2.2.2.2.2.2.2.2⟩

/-- Trial ticket of the newer estimator interface
(`IncrementalEstimator::TryBatchResult` in the header): `batchSet` models
whether the internal batch pointer is still set (the header's `isSet`);
consuming the ticket clears it (`unset`). -/
structure TryBatchResult where
  batchSet : Bool
deriving DecidableEq

/-- Modelled from the spec: `IncrementalEstimator::acceptBatch` is declared in
the header but its body is not among the source files; per the spec a pending
decision is consumed at most once and double consumption must fail loudly
with no further mutation of estimator state.  The commit mutation itself is
abstracted as `commit`. -/
def acceptBatchImpl (commit : EstState → EstState) (t : TryBatchResult)
    (s : EstState) : EstState × Except EstError Unit :=
  if t.batchSet then (commit s, Except.ok ())
  else (s, Except.error EstError.doubleConsumption)

/-- Modelled from the spec: `IncrementalEstimator::rejectBatch`, analogous to
`acceptBatchImpl`, with the rollback mutation abstracted as `rollback`
applied to the restore flag. -/
def rejectBatchImpl (rollback : Bool → EstState → EstState) (restore : Bool)
    (t : TryBatchResult) (s : EstState) : EstState × Except EstError Unit :=
  if t.batchSet then (rollback restore s, Except.ok ())
  else (s, Except.error EstError.doubleConsumption)

/-- `TryBatchResult::accept` as inlined in the header: invokes `acceptBatch`
and then unsets the ticket; when `acceptBatch` fails the exception propagates
and the ticket is left as it was. -/
def TryBatchResult.accept (commit : EstState → EstState) (t : TryBatchResult)
    (s : EstState) : TryBatchResult × EstState × Except EstError Unit :=
  match acceptBatchImpl commit t s with
  | (s2, Except.ok _) => (⟨false⟩, s2, Except.ok ())
  | (s2, Except.error e) => (t, s2, Except.error e)

/-- `TryBatchResult::reject` as inlined in the header: invokes `rejectBatch`
and then unsets the ticket; when `rejectBatch` fails the exception propagates
and the ticket is left as it was. -/
def TryBatchResult.reject (rollback : Bool → EstState → EstState)
    (restore : Bool) (t : TryBatchResult) (s : EstState) :
    TryBatchResult × EstState × Except EstError Unit :=
  match rejectBatchImpl rollback restore t s with
  | (s2, Except.ok _) => (⟨false⟩, s2, Except.ok ())
  | (s2, Except.error e) => (t, s2, Except.error e)

/-- C9. A pending trial decision is single-use: consuming it by `accept` or
`reject` unsets it, and any invocation of `accept` or `reject` on an unset
(already consumed) ticket fails with the double-consumption error and leaves
both the ticket and the estimator state untouched. -/
theorem tryBatchResult_single_use (commit : EstState → EstState)
    (rollback : Bool → EstState → EstState) (restore : Bool)
    (t : TryBatchResult) (s : EstState) :
    (t.batchSet = true →
      (TryBatchResult.accept commit t s).1.batchSet = false ∧
      (TryBatchResult.reject rollback restore t s).1.batchSet = false) ∧
    (t.batchSet = false →
      TryBatchResult.accept commit t s
        = (t, s, Except.error EstError.doubleConsumption) ∧
      TryBatchResult.reject rollback restore t s
        = (t, s, Except.error EstError.doubleConsumption)) := by
  obtain ⟨bs⟩ := t
  cases bs <;>
    simp [TryBatchResult.accept, TryBatchResult.reject, acceptBatchImpl,
      rejectBatchImpl]

/-- Default estimator state used by the C9 witness. -/
def defState : EstState := initialState 0 ⟨1 / 5, false, 20, false, 0⟩

/-- Witness for C9: a ticket consumed once (unset) fails on reuse and changes
nothing. -/
theorem tryBatchResult_single_use_witness :
    ((⟨false⟩ : TryBatchResult).batchSet = false) ∧
      TryBatchResult.accept id ⟨false⟩ defState
        = (⟨false⟩, defState, Except.error EstError.doubleConsumption) :=
  ⟨rfl,
    ((tryBatchResult_single_use id (fun _ s => s) true ⟨false⟩ defState).2
      rfl).1⟩

/-- C10 (amended). Bootstrap detection is by the zero value of the stored
log-singular-value sum, not by an explicit first-commit flag or the batch
count: whenever the stored sum is exactly `0` — even with batches already
committed — a trial with a valid solution is scored by the bootstrap rule
(gain reported as `0`, batch informative), while a trial with an invalid
solution reports half the NEW log-singular-value sum as gain (not `0`) and is
not informative. -/
theorem zero_sum_bootstrap (s : EstState) (b : Batch) (force : Bool)
    (env : TrialEnv) (h0 : s.svLogSum = 0)
    (hmem : s.margGroupId ∈ (s.problem.add b).groupsOrdering) :
    (solutionValidOf s.options env.srv = true →
      (addBatch s b force env).2.toOption.map ReturnValue.mi = some 0 ∧
      KeepBatch s env) ∧
    (solutionValidOf s.options env.srv = false →
      (addBatch s b force env).2.toOption.map ReturnValue.mi
          = some ((1 / 2) * env.marg.svLogSum) ∧
      ¬ KeepBatch s env) := by
  rw [addBatch_ret s b force env hmem]
  constructor
  · intro hvalid
    have hboot : BootKeep s env := ⟨h0, hvalid⟩
    exact ⟨by simp [Except.toOption, mkReturn, retMiOf, hboot], Or.inl hboot⟩
  · intro hinvalid
    have hnv : ¬ solutionValidOf s.options env.srv = true := by
      simp [hinvalid]
    have hboot : ¬ BootKeep s env := fun hb => hnv hb.2
    have hkeep : ¬ KeepBatch s env := by
      intro hk
      rcases hk with hb | ⟨_, hv⟩
      · exact hboot hb
      · exact hnv hv
    refine ⟨?_, hkeep⟩
    have h2 : retMiOf s env = (1 / 2) * env.marg.svLogSum := by
      rw [retMiOf.eq_def, if_neg hboot, infoGainOf.eq_def, h0, sub_zero]
    simp [Except.toOption, mkReturn, h2]

/-- Concrete state for the C10 counterexample and witness: one batch is
already committed, yet the stored log-singular-value sum is exactly `0`. -/
def c10State : EstState :=
  { problem := { batches := [⟨1, [2], [5]⟩], groupsOrdering := [5], saved := [] }
    margGroupId := 5
    mi := 0
    svLogSum := 0
    NS := ⟨1, 1, [0]⟩
    CS := ⟨3, 2, []⟩
    Sigma := ⟨0, 0, []⟩
    SigmaP := ⟨0, 0, []⟩
    Omega := ⟨0, 0, []⟩
    options := ⟨1 / 5, false, 20, false, 0⟩ }

/-- Concrete batch for the C10 counterexample and witness. -/
def c10Batch : Batch := ⟨7, [3], [5]⟩

/-- Concrete oracle for the C10 counterexample: invalid solve (cost rose),
new log-singular-value sum `2`. -/
def c10Env : TrialEnv :=
  { solve := fun _ => [9]
    srv := ⟨5, 10, 12⟩
    marg := ⟨2, ⟨1, 1, [1]⟩, ⟨3, 2, []⟩, ⟨0, 0, []⟩, ⟨0, 0, []⟩, ⟨0, 0, []⟩⟩
    rank := 3
    qrTol := 0
    elapsed := 0
    memUsage := 0 }

/-- Counterexample to C10 as stated: with one batch already committed and the
stored sum equal to `0`, a trial whose solution is invalid reports gain `1`,
so the gain is NOT forced to `0` in every zero-stored-sum trial. -/
theorem zero_sum_gain_counterexample :
    getNumBatches c10State = 1 ∧ c10State.svLogSum = 0 ∧
      (addBatch c10State c10Batch false c10Env).2.toOption.map
          ReturnValue.mi = some 1 ∧
      (1 : ℚ) ≠ 0 := by
  have hnv : ¬ solutionValidOf c10State.options c10Env.srv = true := by
    norm_num [solutionValidOf, c10State, c10Env]
  have hboot : ¬ BootKeep c10State c10Env := fun hb => hnv hb.2
  have hmi : retMiOf c10State c10Env = 1 := by
    rw [retMiOf.eq_def, if_neg hboot, infoGainOf.eq_def]
    norm_num [c10State, c10Env]
  rw [addBatch_ret c10State c10Batch false c10Env (by decide)]
  refine ⟨rfl, rfl, ?_, ?_⟩
  · simp [Except.toOption, mkReturn, hmi]
  · norm_num

/-- Concrete oracle for the C10 witness: valid solve with a tiny spectrum sum
(`1/10`, gain `1/20`, far below the threshold `1/5`) and no rank increase —
yet the batch is informative, because the zero stored sum triggers the
bootstrap rule despite the already committed batch. -/
def c10ValidEnv : TrialEnv :=
  { solve := fun _ => [9]
    srv := ⟨5, 10, 8⟩
    marg := ⟨1 / 10, ⟨1, 1, [1]⟩, ⟨3, 2, []⟩, ⟨0, 0, []⟩, ⟨0, 0, []⟩, ⟨0, 0, []⟩⟩
    rank := 3
    qrTol := 0
    elapsed := 0
    memUsage := 0 }

/-- Witness for C10 at the concrete zero-stored-sum state with a committed
batch. -/
theorem zero_sum_bootstrap_witness :
    c10State.svLogSum = 0 ∧
      ((solutionValidOf c10State.options c10ValidEnv.srv = true →
        (addBatch c10State c10Batch false c10ValidEnv).2.toOption.map
            ReturnValue.mi = some 0 ∧
        KeepBatch c10State c10ValidEnv) ∧
      (solutionValidOf c10State.options c10ValidEnv.srv = false →
        (addBatch c10State c10Batch false c10ValidEnv).2.toOption.map
            ReturnValue.mi = some ((1 / 2) * c10ValidEnv.marg.svLogSum) ∧
        ¬ KeepBatch c10State c10ValidEnv)) :=
  ⟨rfl, zero_sum_bootstrap c10State c10Batch false c10ValidEnv rfl (by decide)⟩

end AslamCalibration
